import Mathlib

/-!
Shallow embedding of `src/mon-summon.c` (Angband monster summoning).

Pointers to `monster_base` are modelled as `Nat` identities, race flag sets
as `List Nat`, C strings as `Option String` (`none` = NULL pointer).
External collaborators (terrain queries, the weighted allocation table,
placement, the RNG) live in an `Env` of oracle functions; the mutable
globals of the file (`summon_specific_type`, the registry, `kin_base`,
the allocation-table restriction) live in an explicit state `St`.
Ghost logs (`radiusLog`, `drawLog`, `placeLog`) record the arguments of
calls to external collaborators; they influence no control flow.
-/

set_option linter.unusedVariables false

namespace MonSummon

/-- The RF_UNIQUE race flag (an opaque flag identity). -/
def RF_UNIQUE : Nat := 1

/-- Role tag MON_GROUP_SUMMON used for group info of summoned monsters. -/
def MON_GROUP_SUMMON : Int := 1

/-- A grid location `struct loc`. -/
abbrev Loc := Int × Int

/-- Embedding of `struct monster_race`: the fields this file reads. `base` is the
identity of the race's `monster_base` pointer. -/
structure MonsterRace where
  flags : List Nat
  base : Nat
  speed : Int
  level : Int
deriving DecidableEq, Repr

/-- Embedding of `struct monster`: the fields this file reads or writes.
`m_timed_hold` is `m_timed[MON_TMD_HOLD]`. -/
structure Monster where
  race : Option MonsterRace
  grid : Loc
  energy : Int
  m_timed_hold : Int
deriving DecidableEq, Repr

/-- Embedding of `struct summon` (one record of the summon catalog). The transient
`next` pointer is represented by list structure of the parsed input.
`race_flag = 0` models an unset flag, as in the C truthiness test. -/
structure Summon where
  name : Option String
  desc : Option String
  message_type : Int
  fallback_name : Option String
  fallback : Int
  bases : List Nat
  race_flag : Nat
  unique_allowed : Bool
deriving DecidableEq, Repr

/-- A zero-filled `struct summon`, as produced by `mem_zalloc`. -/
def zeroSummon : Summon :=
  { name := none, desc := none, message_type := 0, fallback_name := none
    fallback := 0, bases := [], race_flag := 0, unique_allowed := false }

/-- The registry globals: `summon_max` and the `summons` array. -/
structure SummonState where
  summon_max : Nat
  summons : List Summon
deriving DecidableEq, Repr

/-- Read `summons[i]` (total; a zeroed record stands for memory outside
what the registry filled, which the verified claims never rely on). -/
def sidx (st : SummonState) (i : Nat) : Summon :=
  st.summons.getD i zeroSummon

/-- Read `summons[i]` at an `int` index. -/
def sidxI (st : SummonState) (i : Int) : Summon :=
  if i < 0 then zeroSummon else sidx st i.toNat

/-- The scan loop of `summon_name_to_idx`: compare `s` against
`summons[i].name` for `fuel` successive indices starting at `i`.
`streq` against a NULL record name is treated as a failed match here
(see `nameScanE` for the variant that flags that comparison). -/
def nameScan (st : SummonState) (s : String) : Nat → Nat → Int
  | _, 0 => -1
  | i, fuel + 1 =>
    if (sidx st i).name = some s then (i : Int)
    else nameScan st s (i + 1) fuel

/-- Embedding of `summon_name_to_idx`: linear scan over `summons[0..summon_max)`;
`-1` when the name is NULL or matches nothing. -/
def summon_name_to_idx (st : SummonState) (name : Option String) : Int :=
  match name with
  | none => -1
  | some s => nameScan st s 0 st.summon_max

/-- Scan loop of the error-tracking lookup: comparing the searched name
against a record whose `name` is NULL is the error branch (in C this is
`streq(name, NULL)`, undefined behaviour). -/
def nameScanE (st : SummonState) (s : String) : Nat → Nat → Except Unit Int
  | _, 0 => Except.ok (-1)
  | i, fuel + 1 =>
    match (sidx st i).name with
    | none => Except.error ()
    | some t => if t = s then Except.ok (i : Int) else nameScanE st s (i + 1) fuel

/-- Embedding of `summon_name_to_idx`, totalized with an explicit error branch for the
comparison of the searched name with an absent (NULL) record name. -/
def summon_name_to_idxE (st : SummonState) (name : Option String) : Except Unit Int :=
  match name with
  | none => Except.ok (-1)
  | some s => nameScanE st s 0 st.summon_max

/-- Embedding of `summon_desc`: bound-checked against `summon_max`, returning the
stored description (NULL modelled as `none`). -/
def summon_desc (st : SummonState) (type : Int) : Option String :=
  if type < 0 ∨ (st.summon_max : Int) ≤ type then none
  else (sidx st type.toNat).desc

/-- Embedding of `summon_message_type`: unchecked field accessor. -/
def summon_message_type (st : SummonState) (summon_type : Int) : Int :=
  (sidxI st summon_type).message_type

/-- Embedding of `summon_fallback_type`: unchecked field accessor. -/
def summon_fallback_type (st : SummonState) (summon_type : Int) : Int :=
  (sidxI st summon_type).fallback

/-- Embedding of `create_summons`: count the parsed entries, copy them into an array
of size `count + 1` whose last slot stays zero-filled, bump `summon_max`
to `count + 1`, then resolve each record's `fallback_name` to an index
by `summon_name_to_idx` over the populated array. -/
def create_summons (parsed : List Summon) : SummonState :=
  let n := parsed.length
  let st0 : SummonState := { summon_max := n + 1, summons := parsed ++ [zeroSummon] }
  { st0 with
    summons := st0.summons.map
      (fun r => { r with fallback := summon_name_to_idx st0 r.fallback_name }) }

/-- Embedding of `rf_has`: membership of a flag in a race's flag set. -/
def rf_has (flags : List Nat) (f : Nat) : Bool :=
  decide (f ∈ flags)

/-- The base-list scan of `summon_specific_okay`: walk `bases`; `true`
on a match or on an empty list (the `while` is skipped), `false` when
the list ends without a match. -/
def baseCheck (rbase : Nat) : List Nat → Bool
  | [] => true
  | b :: rest =>
    if rbase = b then true
    else if rest = [] then false
    else baseCheck rbase rest

/-- The globals read by `summon_specific_okay`. -/
structure OkayCtx where
  st : SummonState
  summon_specific_type : Int
  kin_base : Nat

/-- Embedding of `summon_specific_okay`: eligibility of a race under the active
summon type. -/
def summon_specific_okay (ctx : OkayCtx) (race : MonsterRace) : Bool :=
  let summon := sidxI ctx.st ctx.summon_specific_type
  let unique := rf_has race.flags RF_UNIQUE
  if !summon.unique_allowed && unique then false
  else if !baseCheck race.base summon.bases then false
  else if summon.race_flag ≠ 0 && !rf_has race.flags summon.race_flag then false
  else if ctx.summon_specific_type = summon_name_to_idx ctx.st (some "KIN") then
    !unique && decide (race.base = ctx.kin_base)
  else true

/-- The live-monster table of `struct chunk` (the parts this file reads):
index 0 is reserved, `cave_monster_max` is the length. -/
structure Cave where
  monsters : List Monster
deriving DecidableEq, Repr

/-- A dead slot of the monster table (race pointer NULL). -/
def deadMonster : Monster :=
  { race := none, grid := (0, 0), energy := 0, m_timed_hold := 0 }

/-- Embedding of `cave_monster`. -/
def cave_monster (c : Cave) (i : Nat) : Monster :=
  c.monsters.getD i deadMonster

/-- Embedding of `cave_monster_max`. -/
def cave_monster_max (c : Cave) : Nat :=
  c.monsters.length

/-- Oracles for the external collaborators (terrain, LOS, weighted
allocation table, placement, grouping, RNG draw).
Modelled from the spec: these routines are outside this file; only
their interfaces are used here (spec section 6). `scatter` takes the
origin, the requested distance and the attempt number; `get_mon_num`
sees the currently installed restriction; `place_new_monster` yields
the monster placed at the grid, or `none` on refusal. -/
structure Env where
  scatter : Loc → Int → Nat → Loc
  isEmpty : Loc → Bool
  isWarded : Loc → Bool
  isDecoyed : Loc → Bool
  los : Loc → Loc → Bool
  get_mon_num : Option (MonsterRace → Bool) → Int → Option MonsterRace
  place_new_monster : Loc → MonsterRace → Int × Int → Option Monster
  summon_group_index : Int → Int
  rand : Nat

/-- The mutable state threaded through the algorithms: the registry,
the file's globals, the weighted pool's restriction, the live-monster
table, the player fields read here, and ghost logs of collaborator
calls (scatter radii requested, weighted-draw targets, placement
grids). -/
structure St where
  reg : SummonState
  summon_specific_type : Int
  kin_base : Nat
  restriction : Option (MonsterRace → Bool)
  cave : Cave
  player_depth : Int
  player_speed : Int
  mon_current : Int
  radiusLog : List Int
  drawLog : List Int
  placeLog : List Loc

/-- Embedding of `randint0(m)`.
Modelled from the spec: the external RNG contract — a draw uniform on
[0, m-1] for m ≥ 2 and degenerately 0 for m ≤ 1; `r` is the random
source, quantified over in theorems. -/
def randint0 (m : Int) (r : Nat) : Nat :=
  if m ≤ 1 then 0 else r % m.toNat

/-- Embedding of `can_call_monster`: alive, eligible, and not in LOS of the target
grid. -/
def can_call_monster (env : Env) (ctx : OkayCtx) (grid : Loc) (mon : Monster) : Bool :=
  match mon.race with
  | none => false
  | some race => summon_specific_okay ctx race && !env.los grid mon.grid

/-- The candidate indices collected by the two scan loops of
`call_monster` (`for i = 1; i < cave_monster_max; i++`): both passes
apply the same filter, so the count is the length of this list and the
`mon_indices` array is this list. -/
def callCandidates (env : Env) (ctx : OkayCtx) (c : Cave) (grid : Loc) : List Nat :=
  (List.range (cave_monster_max c)).filter
    (fun i => decide (1 ≤ i) && can_call_monster env ctx grid (cave_monster c i))

/-- Embedding of `call_monster`: count candidates, fail on zero, collect them, draw
`randint0(mon_count - 1)`, move the chosen monster to `grid` (the swap,
seen from the monster), zero its energy, and return its race level. -/
def call_monster (env : Env) (ctx : OkayCtx) (c : Cave) (grid : Loc) (r : Nat) :
    Int × Cave :=
  let mon_indices := callCandidates env ctx c grid
  let mon_count := mon_indices.length
  if mon_count = 0 then (0, c)
  else
    let choice := randint0 ((mon_count : Int) - 1) r
    let mi := mon_indices.getD choice 0
    let mon := cave_monster c mi
    let mon1 := { mon with grid := grid, energy := 0 }
    ((match mon1.race with | some race => race.level | none => 0),
     { c with monsters := c.monsters.set mi mon1 })

/-- The location-search loop of `summon_specific`: attempt index `i`,
remaining `fuel` attempts, accumulating the ghost log of requested
scatter distances. Distance is `i / 15 + 1`; a cell is rejected when
not empty, or warded, or decoyed. -/
def locSearch (env : Env) (grid : Loc) : Nat → Nat → List Int → Option Loc × List Int
  | _, 0, log => (none, log)
  | i, fuel + 1, log =>
    let d : Int := (i / 15 : Nat) + 1
    let near := env.scatter grid d i
    if !env.isEmpty near then locSearch env grid (i + 1) fuel (log ++ [d])
    else if env.isWarded near || env.isDecoyed near then
      locSearch env grid (i + 1) fuel (log ++ [d])
    else (some near, log ++ [d])

/-- The calling branch of `summon_specific`: delegate to `call_monster`
at the found cell and return its result. -/
def callPhase (env : Env) (s : St) (near : Loc) : Int × St :=
  let ctx : OkayCtx := ⟨s.reg, s.summon_specific_type, s.kin_base⟩
  let rc := call_monster env ctx s.cave near env.rand
  (rc.1, { s with cave := rc.2 })

/-- The conjuring branch of `summon_specific`: restrict the pool to
`summon_specific_okay`, draw at `(player->depth + lev) / 2 + 5`, reset
the pool, then on a draw build group info, attempt placement, and on
success apply the delay adjustment (`turns` by C truncating division;
the hold timer written whenever `turns` is nonzero). -/
def conjurePhase (env : Env) (s : St) (near : Loc) (lev : Int) (delay : Bool) :
    Int × St :=
  let ctx : OkayCtx := ⟨s.reg, s.summon_specific_type, s.kin_base⟩
  let s1 := { s with restriction := some (fun race => summon_specific_okay ctx race) }
  let target := Int.tdiv (s1.player_depth + lev) 2 + 5
  let race? := env.get_mon_num s1.restriction target
  let s2 := { s1 with drawLog := s1.drawLog ++ [target], restriction := none }
  match race? with
  | none => (0, s2)
  | some race =>
    let info : Int × Int :=
      if 0 < s2.mon_current then (env.summon_group_index s2.mon_current, MON_GROUP_SUMMON)
      else (0, 0)
    let s3 := { s2 with placeLog := s2.placeLog ++ [near] }
    match env.place_new_monster near race info with
    | none => (0, s3)
    | some mon0 =>
      let mon1 :=
        if delay then
          let turns := Int.tdiv ((match mon0.race with
            | some rc => rc.speed
            | none => 0) + 9 - s3.player_speed) 10
          let m := { mon0 with energy := 0 }
          if turns = 0 then m else { m with m_timed_hold := turns }
        else mon0
      let s4 := { s3 with cave := { s3.cave with monsters := s3.cave.monsters ++ [mon1] } }
      ((match mon1.race with | some rc => rc.level | none => 0), s4)

/-- Embedding of `summon_specific`: search for a legal cell (failure returns 0 with
nothing else touched), save the summon type, then either the calling
branch (when `call` and the type is neither "UNIQUE" nor "WRAITH" by
registry lookup) or the conjuring branch. -/
def summon_specific (env : Env) (s : St) (grid : Loc) (lev : Int) (type : Int)
    (delay call : Bool) : Int × St :=
  let res := locSearch env grid 0 60 []
  let s1 := { s with radiusLog := s.radiusLog ++ res.2 }
  match res.1 with
  | none => (0, s1)
  | some near =>
    let s2 := { s1 with summon_specific_type := type }
    if call ∧ type ≠ summon_name_to_idx s2.reg (some "UNIQUE")
        ∧ type ≠ summon_name_to_idx s2.reg (some "WRAITH") then
      callPhase env s2 near
    else
      conjurePhase env s2 near lev delay

/-- Embedding of `select_shape`: save the summon type, restrict the pool, draw at
`player->depth + 5`, reset the pool, return the drawn race. The `mon`
argument is never read. -/
def select_shape (env : Env) (s : St) (mon : Monster) (type : Int) :
    Option MonsterRace × St :=
  let s1 := { s with summon_specific_type := type }
  let ctx : OkayCtx := ⟨s1.reg, s1.summon_specific_type, s1.kin_base⟩
  let s2 := { s1 with restriction := some (fun race => summon_specific_okay ctx race) }
  let target := s2.player_depth + 5
  let race? := env.get_mon_num s2.restriction target
  let s3 := { s2 with drawLog := s2.drawLog ++ [target], restriction := none }
  (race?, s3)

/-! ### Concrete fixtures used by counterexamples and witnesses -/

/-- A permissive summon record named "ANY": no restriction at all. -/
def anyRec : Summon :=
  { name := some "ANY", desc := some "any", message_type := 0, fallback_name := none
    fallback := 0, bases := [], race_flag := 0, unique_allowed := true }

/-- Registry built from the single record `anyRec`. -/
def reg1 : SummonState := create_summons [anyRec]

/-- Context: active type 0 (the "ANY" record) over `reg1`. -/
def ctx1 : OkayCtx := ⟨reg1, 0, 0⟩

/-- A non-unique race of level 5. -/
def race1 : MonsterRace := ⟨[], 11, 110, 5⟩

/-- A non-unique race of level 9. -/
def race2 : MonsterRace := ⟨[], 12, 110, 9⟩

/-- A monster table with the reserved slot 0 and two live monsters. -/
def cave1 : Cave :=
  ⟨[deadMonster,
    { race := some race1, grid := (5, 5), energy := 7, m_timed_hold := 0 },
    { race := some race2, grid := (9, 9), energy := 7, m_timed_hold := 0 }]⟩

/-- An environment where every cell is empty and nothing is in LOS. -/
def env1 : Env :=
  { scatter := fun _ _ _ => (1, 1), isEmpty := fun _ => true
    isWarded := fun _ => false, isDecoyed := fun _ => false
    los := fun _ _ => false, get_mon_num := fun _ _ => none
    place_new_monster := fun _ _ _ => none
    summon_group_index := fun _ => 0, rand := 0 }

/-! ### Theorems -/

/-- C10: `select_shape` never reads its monster argument: for any two
monsters, the same type and surrounding state yield the same drawn race
and the same final state. -/
theorem select_shape_independent_of_monster
    (env : Env) (s : St) (m1 m2 : Monster) (type : Int) :
    select_shape env s m1 type = select_shape env s m2 type :=
  rfl

/-- The conjuring branch always ends with the pool restriction reset. -/
lemma conjurePhase_restriction_none (env : Env) (s : St) (near : Loc)
    (lev : Int) (delay : Bool) :
    ((conjurePhase env s near lev delay).2).restriction = none := by
  simp only [conjurePhase]
  repeat' split
  all_goals rfl

/-- The calling branch never touches the pool restriction. -/
lemma callPhase_restriction_eq (env : Env) (s : St) (near : Loc) :
    ((callPhase env s near).2).restriction = s.restriction :=
  rfl

/-- C2: on every return path of `summon_specific` (location failure,
calling branch, failed draw, failed placement, success) and of
`select_shape`, the pool restriction installed via `get_mon_num_prep`
is cleared: starting unrestricted, both functions finish unrestricted,
so a subsequent unrelated draw sees the full pool. -/
theorem pool_restriction_cleared_on_all_paths
    (env : Env) (s : St) (grid : Loc) (lev type : Int) (delay call : Bool)
    (mon : Monster) (type2 : Int) :
    (s.restriction = none →
      ((summon_specific env s grid lev type delay call).2).restriction = none) ∧
    ((select_shape env s mon type2).2).restriction = none := by
  constructor
  · intro h
    simp only [summon_specific]
    split
    · simpa using h
    · split
      · simpa [callPhase_restriction_eq] using h
      · exact conjurePhase_restriction_none ..
  · rfl

/-- C2 witness: a concrete unrestricted state stays unrestricted through
both entry points. -/
theorem pool_restriction_cleared_concrete :
    (({ reg := reg1, summon_specific_type := 0, kin_base := 0, restriction := none
        cave := cave1, player_depth := 5, player_speed := 110, mon_current := 0
        radiusLog := [], drawLog := [], placeLog := [] } : St).restriction = none) ∧
    ((summon_specific env1
        { reg := reg1, summon_specific_type := 0, kin_base := 0, restriction := none
          cave := cave1, player_depth := 5, player_speed := 110, mon_current := 0
          radiusLog := [], drawLog := [], placeLog := [] }
        (0, 0) 3 0 false false).2).restriction = none ∧
    ((select_shape env1
        { reg := reg1, summon_specific_type := 0, kin_base := 0, restriction := none
          cave := cave1, player_depth := 5, player_speed := 110, mon_current := 0
          radiusLog := [], drawLog := [], placeLog := [] }
        deadMonster 0).2).restriction = none :=
  ⟨rfl,
   (pool_restriction_cleared_on_all_paths env1 _ (0, 0) 3 0 false false deadMonster 0).1 rfl,
   (pool_restriction_cleared_on_all_paths env1 _ (0, 0) 3 0 false false deadMonster 0).2⟩

/-- C1: with exactly two callable candidates (table indices 1 and 2),
`call_monster` draws `randint0(mon_count - 1) = randint0(1)`, which is
0 for every random value, so the first candidate (level 5) is always
chosen and the second candidate (level 9) is chosen with probability 0
— not uniformly 1/2 each as the spec states. -/
theorem call_monster_never_selects_last_candidate :
    ∀ r : Nat,
      callCandidates env1 ctx1 cave1 (0, 0) = [1, 2] ∧
      (call_monster env1 ctx1 cave1 (0, 0) r).1 = 5 ∧
      (cave_monster cave1 2).race = some race2 ∧ race2.level = 9 := by
  intro r
  refine ⟨by decide, rfl, by decide, by decide⟩

/-- A race slower than the player: speed 100, level 4. -/
def race3 : MonsterRace := ⟨[], 21, 100, 4⟩

/-- Environment for the delay scenario: the first scattered cell is
legal, the pool draws `race3`, placement succeeds and yields the placed
monster at the target cell with nonzero energy. -/
def env3 : Env :=
  { scatter := fun _ _ _ => (2, 2), isEmpty := fun _ => true
    isWarded := fun _ => false, isDecoyed := fun _ => false
    los := fun _ _ => false, get_mon_num := fun _ _ => some race3
    place_new_monster := fun near race _ =>
      some { race := some race, grid := near, energy := 50, m_timed_hold := 0 }
    summon_group_index := fun _ => 0, rand := 0 }

/-- Initial state for the delay scenario: empty monster table, player
depth 5, player speed 119. -/
def st3 : St :=
  { reg := reg1, summon_specific_type := 0, kin_base := 0, restriction := none
    cave := ⟨[]⟩, player_depth := 5, player_speed := 119, mon_current := 0
    radiusLog := [], drawLog := [], placeLog := [] }

/-- C3: with `delay` true, placed-race speed 100 and player speed 119,
the code computes `turns = (100 + 9 - 119) / 10 = -1` (C truncating
division) and, because it tests `turns` for nonzero rather than
`turns > 0`, writes a held-status duration of `-1` on the new creature;
the claim says no held status is applied when `turns ≤ 0`. -/
theorem delay_writes_negative_hold_timer :
    (summon_specific env3 st3 (0, 0) 3 0 true false).1 = 4 ∧
    ((summon_specific env3 st3 (0, 0) 3 0 true false).2).cave.monsters =
      [{ race := some race3, grid := (2, 2), energy := 0, m_timed_hold := -1 }] ∧
    Int.tdiv ((100 : Int) + 9 - 119) 10 = -1 :=
  ⟨rfl, rfl, by decide⟩

/-- A summon record named "HOUND" restricted to base 7, uniques
forbidden. -/
def houndRec : Summon :=
  { name := some "HOUND", desc := some "hound", message_type := 0
    fallback_name := none, fallback := 0, bases := [7], race_flag := 0
    unique_allowed := false }

/-- Registry built from the single record `houndRec`. -/
def reg7 : SummonState := create_summons [houndRec]

/-- Context: active type 0 (the "HOUND" record) over `reg7`. -/
def ctx7 : OkayCtx := ⟨reg7, 0, 0⟩

/-- A unique-flagged race whose base 7 is in the allowed list. -/
def race7 : MonsterRace := ⟨[RF_UNIQUE], 7, 110, 3⟩

/-- C7 counterexample: for a summon type with non-empty `allowedBases`
= [7], the predicate rejects `race7` although its base 7 appears in the
list (it is unique-flagged and uniques are forbidden), so "rejects iff
the base appears nowhere in the list" is false as stated about the full
predicate. -/
theorem okay_rejects_despite_base_in_list :
    summon_specific_okay ctx7 race7 = false ∧
    (sidxI reg7 0).bases = [7] ∧
    race7.base ∈ (sidxI reg7 0).bases := by
  decide

/-- For a non-empty list the base scan succeeds exactly on membership. -/
lemma baseCheck_eq_mem (rbase : Nat) (l : List Nat) (hl : l ≠ []) :
    baseCheck rbase l = true ↔ rbase ∈ l := by
  induction l with
  | nil => exact absurd rfl hl
  | cons b rest ih =>
    by_cases hb : rbase = b
    · simp [baseCheck, hb]
    · by_cases hr : rest = []
      · subst hr; simp [baseCheck, hb]
      · rw [baseCheck]
        simp [hb, hr, ih hr]

/-- C7 (amended): for a non-empty `allowedBases` list the base-check
step of the predicate fails exactly when the candidate's base appears
nowhere in the list (exact membership, order-independent), and the full
predicate then rejects the candidate; an empty list bypasses the check.
A candidate whose base is in the list may still be rejected by the
other checks. -/
theorem base_check_rejects_iff_not_member
    (rbase : Nat) (l : List Nat) (ctx : OkayCtx) (race : MonsterRace) :
    (l ≠ [] → (baseCheck rbase l = false ↔ rbase ∉ l)) ∧
    baseCheck rbase [] = true ∧
    ((sidxI ctx.st ctx.summon_specific_type).bases ≠ [] →
      race.base ∉ (sidxI ctx.st ctx.summon_specific_type).bases →
      summon_specific_okay ctx race = false) := by
  refine ⟨fun hl => ?_, rfl, fun hne hnm => ?_⟩
  · rw [← Bool.not_eq_true, baseCheck_eq_mem rbase l hl]
  · have hbc : baseCheck race.base (sidxI ctx.st ctx.summon_specific_type).bases = false := by
      rcases Bool.eq_false_or_eq_true
          (baseCheck race.base (sidxI ctx.st ctx.summon_specific_type).bases) with h | h
      · exact absurd ((baseCheck_eq_mem _ _ hne).mp h) hnm
      · exact h
    simp [summon_specific_okay, hbc]

/-- C7 witness: amended theorem instantiated at base 5 against list [7]
and at the "HOUND" record of `reg7`. -/
theorem base_check_rejects_iff_not_member_witness :
    (baseCheck 5 [7] = false ↔ (5 : Nat) ∉ [7]) ∧
    baseCheck 5 [] = true ∧
    summon_specific_okay ctx7 ⟨[], 5, 110, 3⟩ = false :=
  ⟨(base_check_rejects_iff_not_member 5 [7] ctx7 ⟨[], 5, 110, 3⟩).1 (by decide),
   (base_check_rejects_iff_not_member 5 [7] ctx7 ⟨[], 5, 110, 3⟩).2.1,
   (base_check_rejects_iff_not_member 5 [7] ctx7 ⟨[], 5, 110, 3⟩).2.2
     (by decide) (by decide)⟩

/-- C4: when the active summon type is the index found by looking up
"KIN", the predicate admits a race exactly when it is non-unique, its
base equals the registered kin base, and it passes the unique-allowed,
allowed-bases and required-race-flag checks of the KIN record. -/
theorem kin_admits_iff (st : SummonState) (ty : Int) (kb : Nat)
    (race : MonsterRace)
    (h1 : ty = summon_name_to_idx st (some "KIN")) (h2 : 0 ≤ ty) :
    summon_specific_okay ⟨st, ty, kb⟩ race = true ↔
      (rf_has race.flags RF_UNIQUE = false ∧ race.base = kb ∧
       ((sidxI st ty).unique_allowed = true ∨ rf_has race.flags RF_UNIQUE = false) ∧
       ((sidxI st ty).bases = [] ∨ race.base ∈ (sidxI st ty).bases) ∧
       ((sidxI st ty).race_flag = 0 ∨
         rf_has race.flags (sidxI st ty).race_flag = true)) := by
  subst h1
  simp only [summon_specific_okay, eq_self_iff_true, if_true, ite_true]
  split_ifs with hA hB hC
  · simp only [Bool.and_eq_true, Bool.not_eq_true'] at hA
    constructor
    · intro h; exact absurd h (by simp)
    · rintro ⟨hfu, -⟩
      exact absurd hfu (by simp [hA.2])
  · simp only [Bool.not_eq_true'] at hB
    constructor
    · intro h; exact absurd h (by simp)
    · rintro ⟨-, -, -, hbases, -⟩
      rcases hbases with hbe | hmem
      · rw [hbe] at hB; exact absurd hB (by simp [baseCheck])
      · have hne : (sidxI st (summon_name_to_idx st (some "KIN"))).bases ≠ [] := by
          intro hz; rw [hz] at hmem; simp at hmem
        exact absurd ((baseCheck_eq_mem _ _ hne).mpr hmem)
          (by simp [hB])
  · simp only [Bool.and_eq_true, Bool.not_eq_true', decide_eq_true_eq, ne_eq] at hC
    constructor
    · intro h; exact absurd h (by simp)
    · rintro ⟨-, -, -, -, hflag⟩
      rcases hflag with h0 | hhas
      · exact absurd h0 hC.1
      · exact absurd hhas (by simp [hC.2])
  · simp only [Bool.and_eq_true, Bool.not_eq_true', decide_eq_true_eq]
    constructor
    · rintro ⟨hfu, hbkb⟩
      refine ⟨hfu, hbkb, ?_, ?_, ?_⟩
      · rcases Bool.eq_false_or_eq_true (sidxI st
            (summon_name_to_idx st (some "KIN"))).unique_allowed with hua | hua
        · left; exact hua
        · right
          rcases Bool.eq_false_or_eq_true (rf_has race.flags RF_UNIQUE) with hu | hu
          · exact absurd (by simp [hua, hu]) hA
          · exact hu
      · simp only [Bool.not_eq_true'] at hB
        by_cases hbe : (sidxI st (summon_name_to_idx st (some "KIN"))).bases = []
        · left; exact hbe
        · right
          rcases Bool.eq_false_or_eq_true (baseCheck race.base
              (sidxI st (summon_name_to_idx st (some "KIN"))).bases) with hbc | hbc
          · exact (baseCheck_eq_mem _ _ hbe).mp hbc
          · exact absurd hbc hB
      · simp only [Bool.and_eq_true, Bool.not_eq_true', decide_eq_true_eq, ne_eq] at hC
        by_cases hf0 : (sidxI st (summon_name_to_idx st (some "KIN"))).race_flag = 0
        · left; exact hf0
        · right
          rcases Bool.eq_false_or_eq_true (rf_has race.flags
              (sidxI st (summon_name_to_idx st (some "KIN"))).race_flag) with hrf | hrf
          · exact hrf
          · exact absurd ⟨hf0, hrf⟩ hC
    · rintro ⟨hfu, hbkb, -, -, -⟩
      exact ⟨hfu, hbkb⟩

/-- A "KIN" summon record with no base or flag restrictions. -/
def kinRec : Summon :=
  { name := some "KIN", desc := some "kin", message_type := 0
    fallback_name := none, fallback := 0, bases := [], race_flag := 0
    unique_allowed := false }

/-- Registry built from the single record `kinRec`. -/
def reg4 : SummonState := create_summons [kinRec]

/-- A non-unique race whose base is 3. -/
def race4 : MonsterRace := ⟨[], 3, 110, 2⟩

/-- C4 witness: the KIN characterization instantiated over `reg4` at
type 0 with kin base 3. -/
theorem kin_admits_iff_witness :
    (0 : Int) = summon_name_to_idx reg4 (some "KIN") ∧
    (summon_specific_okay ⟨reg4, 0, 3⟩ race4 = true ↔
      (rf_has race4.flags RF_UNIQUE = false ∧ race4.base = 3 ∧
       ((sidxI reg4 0).unique_allowed = true ∨ rf_has race4.flags RF_UNIQUE = false) ∧
       ((sidxI reg4 0).bases = [] ∨ race4.base ∈ (sidxI reg4 0).bases) ∧
       ((sidxI reg4 0).race_flag = 0 ∨
         rf_has race4.flags (sidxI reg4 0).race_flag = true))) :=
  ⟨by decide, kin_admits_iff reg4 0 3 race4 (by decide) (by decide)⟩

/-- C8: when a legal cell is found, `call` is true and the type's index
differs from the lookups of "UNIQUE" and "WRAITH", `summon_specific`
stores the type as the active summon context, delegates to
`call_monster` at the found cell and returns its result; no weighted
draw, no pool restriction change and no placement attempt occur. -/
theorem call_path_delegates (env : Env) (s : St) (grid : Loc) (lev ty : Int)
    (delay : Bool) (near : Loc)
    (hloc : (locSearch env grid 0 60 []).1 = some near)
    (hu : ty ≠ summon_name_to_idx s.reg (some "UNIQUE"))
    (hw : ty ≠ summon_name_to_idx s.reg (some "WRAITH")) :
    (summon_specific env s grid lev ty delay true).1 =
      (call_monster env ⟨s.reg, ty, s.kin_base⟩ s.cave near env.rand).1 ∧
    ((summon_specific env s grid lev ty delay true).2).summon_specific_type = ty ∧
    ((summon_specific env s grid lev ty delay true).2).restriction = s.restriction ∧
    ((summon_specific env s grid lev ty delay true).2).drawLog = s.drawLog ∧
    ((summon_specific env s grid lev ty delay true).2).placeLog = s.placeLog ∧
    ((summon_specific env s grid lev ty delay true).2).cave =
      (call_monster env ⟨s.reg, ty, s.kin_base⟩ s.cave near env.rand).2 := by
  simp only [summon_specific, hloc]
  split
  · exact ⟨rfl, rfl, rfl, rfl, rfl, rfl⟩
  · rename_i hcond
    exact absurd ⟨trivial, hu, hw⟩ hcond

/-- C8 witness: concrete delegation over `reg1` (which has neither a
"UNIQUE" nor a "WRAITH" record, so both lookups give -1). -/
theorem call_path_delegates_witness :
    (locSearch env1 (0, 0) 0 60 []).1 = some (1, 1) ∧
    (0 : Int) ≠ summon_name_to_idx st3.reg (some "UNIQUE") ∧
    (0 : Int) ≠ summon_name_to_idx st3.reg (some "WRAITH") ∧
    (summon_specific env1 st3 (0, 0) 3 0 false true).1 =
      (call_monster env1 ⟨st3.reg, 0, st3.kin_base⟩ st3.cave (1, 1) env1.rand).1 ∧
    ((summon_specific env1 st3 (0, 0) 3 0 false true).2).drawLog = st3.drawLog :=
  ⟨rfl, by decide, by decide,
   (call_path_delegates env1 st3 (0, 0) 3 0 false (1, 1) rfl (by decide) (by decide)).1,
   (call_path_delegates env1 st3 (0, 0) 3 0 false (1, 1) rfl (by decide)
     (by decide)).2.2.2.1⟩

/-- Splitting the radius list of `n + 1` attempts starting at `i`. -/
lemma range_succ_map_radii (i n : Nat) :
    (List.range (n + 1)).map (fun j => (((i + j) / 15 : Nat) : Int) + 1) =
      (((i / 15 : Nat) : Int) + 1) ::
        (List.range n).map (fun j => (((i + 1 + j) / 15 : Nat) : Int) + 1) := by
  rw [List.range_succ_eq_map]
  simp only [List.map_cons, List.map_map, Nat.add_zero]
  refine congrArg₂ _ rfl ?_
  refine List.map_congr_left ?_
  intro a _
  simp only [Function.comp]
  have hix : i + Nat.succ a = i + 1 + a := by omega
  rw [hix]

/-- When every attempt in range fails, the location search returns
`none` and its ghost log holds exactly the requested radii
`(i + j) / 15 + 1`. -/
lemma locSearch_all_fail (env : Env) (grid : Loc) :
    ∀ (fuel i : Nat) (log : List Int),
      (∀ j, j < fuel →
        env.isEmpty (env.scatter grid ((((i + j) / 15 : Nat) : Int) + 1) (i + j)) = false ∨
        env.isWarded (env.scatter grid ((((i + j) / 15 : Nat) : Int) + 1) (i + j)) = true ∨
        env.isDecoyed (env.scatter grid ((((i + j) / 15 : Nat) : Int) + 1) (i + j)) = true) →
      locSearch env grid i fuel log =
        (none, log ++ (List.range fuel).map
          (fun j => (((i + j) / 15 : Nat) : Int) + 1)) := by
  intro fuel
  induction fuel with
  | zero => intro i log h; simp [locSearch]
  | succ n ih =>
    intro i log h
    have h0 := h 0 (Nat.succ_pos n)
    simp only [Nat.add_zero] at h0
    have hrec := ih (i + 1) (log ++ [(((i / 15 : Nat) : Int) + 1)]) (fun j hj => by
      have hh := h (j + 1) (by omega)
      rwa [show i + (j + 1) = i + 1 + j by omega] at hh)
    rw [locSearch]
    rw [range_succ_map_radii]
    rcases h0 with he | hw | hd
    · simp only [he, Bool.not_false, if_true, ite_true]
      rw [hrec]
      simp
    · have hne : env.isEmpty (env.scatter grid (((i / 15 : Nat) : Int) + 1) i) = true ∨
          env.isEmpty (env.scatter grid (((i / 15 : Nat) : Int) + 1) i) = false :=
        Bool.eq_false_or_eq_true _
      rcases hne with he | he
      · simp only [he, hw, Bool.not_true, Bool.true_or, if_false, ite_false, if_true,
          ite_true, Bool.false_eq_true]
        rw [hrec]
        simp
      · simp only [he, Bool.not_false, if_true, ite_true]
        rw [hrec]
        simp
    · have hne : env.isEmpty (env.scatter grid (((i / 15 : Nat) : Int) + 1) i) = true ∨
          env.isEmpty (env.scatter grid (((i / 15 : Nat) : Int) + 1) i) = false :=
        Bool.eq_false_or_eq_true _
      rcases hne with he | he
      · simp only [he, hd, Bool.not_true, Bool.or_true, if_false, ite_false, if_true,
          ite_true, Bool.false_eq_true]
        rw [hrec]
        simp
      · simp only [he, Bool.not_false, if_true, ite_true]
        rw [hrec]
        simp

/-- C5: the location search requests scatter radius `i / 15 + 1` on
attempt `i` (radii 1×15, 2×15, 3×15, 4×15); when all 60 attempts fail
the emptiness/unwarded/undecoyed test, `summon_specific` returns 0 and
the state is untouched apart from the ghost log of requested radii — in
particular the active summon context and the pool restriction are
unchanged. -/
theorem location_search_radii_and_failure (env : Env) (s : St) (grid : Loc)
    (lev ty : Int) (delay call : Bool)
    (hfail : ∀ i : Nat, i < 60 →
      env.isEmpty (env.scatter grid (((i / 15 : Nat) : Int) + 1) i) = false ∨
      env.isWarded (env.scatter grid (((i / 15 : Nat) : Int) + 1) i) = true ∨
      env.isDecoyed (env.scatter grid (((i / 15 : Nat) : Int) + 1) i) = true) :
    summon_specific env s grid lev ty delay call =
      (0, { s with radiusLog :=
        s.radiusLog ++ (List.range 60).map (fun i => ((i / 15 : Nat) : Int) + 1) }) ∧
    (∀ j, j < 60 →
      ((List.range 60).map (fun i => ((i / 15 : Nat) : Int) + 1)).getD j 0 =
        ((j / 15 : Nat) : Int) + 1) ∧
    ((summon_specific env s grid lev ty delay call).2).summon_specific_type =
      s.summon_specific_type ∧
    ((summon_specific env s grid lev ty delay call).2).restriction = s.restriction := by
  have hls := locSearch_all_fail env grid 60 0 [] (fun j hj => by
    simpa using hfail j hj)
  have h1 : summon_specific env s grid lev ty delay call =
      (0, { s with radiusLog :=
        s.radiusLog ++ (List.range 60).map (fun i => ((i / 15 : Nat) : Int) + 1) }) := by
    simp only [summon_specific, hls]
    simp
  refine ⟨h1, ?_, by rw [h1], by rw [h1]⟩
  intro j hj
  rw [List.getD_eq_getElem?_getD, List.getElem?_map, List.getElem?_range hj]
  rfl

/-- An environment in which no cell is ever empty. -/
def envF : Env :=
  { scatter := fun _ _ _ => (3, 3), isEmpty := fun _ => false
    isWarded := fun _ => false, isDecoyed := fun _ => false
    los := fun _ _ => false, get_mon_num := fun _ _ => none
    place_new_monster := fun _ _ _ => none
    summon_group_index := fun _ => 0, rand := 0 }

/-- C5 witness: with no empty cell anywhere, the concrete summon fails
with only the 60 logged radii changed. -/
theorem location_search_radii_and_failure_witness :
    summon_specific envF st3 (0, 0) 3 0 false false =
      (0, { st3 with radiusLog :=
        st3.radiusLog ++ (List.range 60).map (fun i => ((i / 15 : Nat) : Int) + 1) }) ∧
    ((summon_specific envF st3 (0, 0) 3 0 false false).2).restriction =
      st3.restriction :=
  ⟨(location_search_radii_and_failure envF st3 (0, 0) 3 0 false false
      (fun i _ => Or.inl rfl)).1,
   (location_search_radii_and_failure envF st3 (0, 0) 3 0 false false
      (fun i _ => Or.inl rfl)).2.2.2⟩

/-- The registry as it stands after the copy loop of `create_summons`,
before fallback resolution (the state in which `summon_name_to_idx` is
invoked by the resolution loop). -/
def preRegistry (parsed : List Summon) : SummonState :=
  ⟨parsed.length + 1, parsed ++ [zeroSummon]⟩

/-- Fallback resolution does not change any record's name. -/
lemma sidx_create_name (parsed : List Summon) (i : Nat) :
    (sidx (create_summons parsed) i).name = (sidx (preRegistry parsed) i).name := by
  unfold sidx create_summons preRegistry
  rcases Nat.lt_or_ge i (parsed ++ [zeroSummon]).length with h | h
  · rw [List.getD_eq_getElem?_getD, List.getElem?_map, List.getElem?_eq_getElem h,
      Option.map_some', Option.getD_some, List.getD_eq_getElem _ _ h]
  · rw [List.getD_eq_default _ _ (by simpa using h), List.getD_eq_default _ _ h]

/-- The name scan gives the same answer on the resolved registry and on
the pre-resolution registry. -/
lemma nameScan_create (parsed : List Summon) (s : String) :
    ∀ (fuel i : Nat),
      nameScan (create_summons parsed) s i fuel = nameScan (preRegistry parsed) s i fuel := by
  intro fuel
  induction fuel with
  | zero => intro i; rfl
  | succ n ih =>
    intro i
    simp only [nameScan]
    rw [sidx_create_name, ih]

/-- Name lookup is unchanged by fallback resolution. -/
lemma summon_name_to_idx_create (parsed : List Summon) (nm : Option String) :
    summon_name_to_idx (create_summons parsed) nm =
      summon_name_to_idx (preRegistry parsed) nm := by
  cases nm with
  | none => rfl
  | some s =>
    show nameScan (create_summons parsed) s 0 (create_summons parsed).summon_max = _
    have hm : (create_summons parsed).summon_max = (preRegistry parsed).summon_max := rfl
    rw [hm, nameScan_create]
    rfl

/-- A parsed record, as stored: same fields, resolved fallback. -/
lemma sidx_create_lt (parsed : List Summon) (i : Nat) (h : i < parsed.length) :
    sidx (create_summons parsed) i =
      { parsed.getD i zeroSummon with
        fallback := summon_name_to_idx (preRegistry parsed)
          (parsed.getD i zeroSummon).fallback_name } := by
  unfold sidx create_summons
  have hlen : i < (parsed ++ [zeroSummon]).length := by
    simp only [List.length_append, List.length_cons, List.length_nil]; omega
  rw [List.getD_eq_getElem?_getD, List.getElem?_map, List.getElem?_eq_getElem hlen,
    Option.map_some', Option.getD_some, List.getElem_append_left h,
    List.getD_eq_getElem _ _ h]
  rfl

/-- The extra zero slot, as stored: zero record with fallback resolved
from the NULL name to -1. -/
lemma sidx_create_last (parsed : List Summon) :
    sidx (create_summons parsed) parsed.length = { zeroSummon with fallback := -1 } := by
  unfold sidx create_summons
  have hlen : parsed.length < (parsed ++ [zeroSummon]).length := by
    simp only [List.length_append, List.length_cons, List.length_nil]; omega
  rw [List.getD_eq_getElem?_getD, List.getElem?_map, List.getElem?_eq_getElem hlen,
    Option.map_some', Option.getD_some,
    List.getElem_append_right (Nat.le_refl parsed.length)]
  simp only [Nat.sub_self, List.getElem_cons_zero]
  rfl

/-- C6: after `create_summons` on `N` parsed records, the registry
stores exactly those records at indices `0..N-1` (fields preserved,
fallback resolved by name lookup) with the allocation one slot larger;
`summon_desc` returns none exactly for integer indices outside
`[0, N)`, and any index passing its bound check reads inside the
allocated array (no out-of-bounds access). -/
theorem create_summons_registry (parsed : List Summon)
    (hdesc : ∀ r ∈ parsed, r.desc ≠ none) :
    (create_summons parsed).summon_max = parsed.length + 1 ∧
    (create_summons parsed).summons.length = parsed.length + 1 ∧
    (∀ i, i < parsed.length →
      sidx (create_summons parsed) i =
        { parsed.getD i zeroSummon with
          fallback := summon_name_to_idx (create_summons parsed)
            (parsed.getD i zeroSummon).fallback_name }) ∧
    (∀ t : Int, summon_desc (create_summons parsed) t = none ↔
      (t < 0 ∨ (parsed.length : Int) ≤ t)) ∧
    (∀ t : Int, ¬(t < 0 ∨ ((create_summons parsed).summon_max : Int) ≤ t) →
      t.toNat < (create_summons parsed).summons.length) := by
  have hlen : (create_summons parsed).summons.length = parsed.length + 1 := by
    simp [create_summons]
  have hm : (create_summons parsed).summon_max = parsed.length + 1 := rfl
  refine ⟨rfl, hlen, ?_, ?_, ?_⟩
  · intro i hi
    rw [sidx_create_lt parsed i hi, summon_name_to_idx_create]
  · intro t
    unfold summon_desc
    by_cases hneg : t < 0
    · simp [hneg]
    · push_neg at hneg
      by_cases hge : ((create_summons parsed).summon_max : Int) ≤ t
      · have hNt : (parsed.length : Int) ≤ t := by
          rw [hm] at hge; push_cast at hge; omega
        simp [hge, hNt]
      · have hguard : ¬(t < 0 ∨ ((create_summons parsed).summon_max : Int) ≤ t) := by
          rintro (hc | hc)
          · omega
          · exact hge hc
        rw [if_neg hguard]
        rw [hm] at hge
        by_cases hN : t = (parsed.length : Int)
        · subst hN
          have htn : ((parsed.length : Int)).toNat = parsed.length := by simp
          rw [htn, sidx_create_last]
          simp [zeroSummon]
        · have htN : t < (parsed.length : Int) := by push_cast at hge; omega
          have htn : t.toNat < parsed.length := by omega
          rw [sidx_create_lt parsed t.toNat htn]
          have hmem : parsed.getD t.toNat zeroSummon ∈ parsed := by
            rw [List.getD_eq_getElem _ _ htn]; exact List.getElem_mem htn
          have hd := hdesc _ hmem
          constructor
          · intro hc; exact absurd hc hd
          · rintro (h | h)
            · omega
            · exact absurd h (by omega)
  · intro t ht
    push_neg at ht
    rw [hm] at ht
    rw [hlen]
    omega

/-- C6 witness: the registry built from the single record `anyRec`. -/
theorem create_summons_registry_witness :
    (create_summons [anyRec]).summon_max = 2 ∧
    (summon_desc (create_summons [anyRec]) 0 = none ↔
      ((0 : Int) < 0 ∨ (1 : Int) ≤ 0)) ∧
    (summon_desc (create_summons [anyRec]) 1 = none ↔
      ((1 : Int) < 0 ∨ (1 : Int) ≤ 1)) := by
  have hd : ∀ r ∈ [anyRec], r.desc ≠ none := by
    intro r hr
    rw [List.mem_singleton] at hr
    subst hr
    simp [anyRec]
  exact ⟨(create_summons_registry [anyRec] hd).1,
    (create_summons_registry [anyRec] hd).2.2.2.1 0,
    (create_summons_registry [anyRec] hd).2.2.2.1 1⟩

/-- The error scan fails whenever no scanned slot matches and some
scanned slot has an absent name. -/
lemma nameScanE_error (st : SummonState) (s : String) :
    ∀ (fuel i : Nat),
      (∀ j, j < fuel → (sidx st (i + j)).name ≠ some s) →
      (∃ j, j < fuel ∧ (sidx st (i + j)).name = none) →
      nameScanE st s i fuel = Except.error () := by
  intro fuel
  induction fuel with
  | zero =>
    rintro i h ⟨j, hj, -⟩
    omega
  | succ n ih =>
    intro i h hex
    rw [nameScanE]
    cases hn : (sidx st i).name with
    | none => rfl
    | some t =>
      have ht : ¬(t = s) := by
        have hh := h 0 (Nat.succ_pos n)
        rw [Nat.add_zero, hn] at hh
        simpa using hh
      show (if t = s then Except.ok (i : Int) else nameScanE st s (i + 1) n) =
        Except.error ()
      rw [if_neg ht]
      apply ih (i + 1)
      · intro j hj
        have hh := h (j + 1) (by omega)
        rwa [show i + (j + 1) = i + 1 + j by omega] at hh
      · rcases hex with ⟨j, hj, hnone⟩
        cases j with
        | zero =>
          rw [Nat.add_zero, hn] at hnone
          exact absurd hnone (by simp)
        | succ k =>
          refine ⟨k, by omega, ?_⟩
          rwa [show i + (k + 1) = i + 1 + k by omega] at hnone

/-- C9: looking up any name that matches no parsed record scans past
the parsed entries into the appended zero-initialized slot, whose name
is absent — in the totalized embedding, the lookup reaches the error
branch that compares the searched name with an absent record name (the
fallback-resolution pass performs exactly such lookups for unmatched
fallback names). -/
theorem lookup_unmatched_reaches_absent_name (parsed : List Summon) (s : String)
    (h : ∀ r ∈ parsed, r.name ≠ some s) :
    summon_name_to_idxE (create_summons parsed) (some s) = Except.error () := by
  show nameScanE (create_summons parsed) s 0 (create_summons parsed).summon_max = _
  have hm : (create_summons parsed).summon_max = parsed.length + 1 := rfl
  rw [hm]
  apply nameScanE_error
  · intro j hj
    rcases Nat.lt_or_ge j parsed.length with hjN | hjN
    · rw [Nat.zero_add, sidx_create_name]
      unfold preRegistry sidx
      have hjlen : j < (parsed ++ [zeroSummon]).length := by
        simp only [List.length_append, List.length_cons, List.length_nil]; omega
      rw [List.getD_eq_getElem _ _ hjlen, List.getElem_append_left hjN]
      exact h _ (List.getElem_mem hjN)
    · have hjeq : j = parsed.length := by omega
      rw [Nat.zero_add, hjeq, sidx_create_last]
      simp [zeroSummon]
  · refine ⟨parsed.length, by omega, ?_⟩
    rw [Nat.zero_add, sidx_create_last]
    rfl

/-- C9 witness: over the registry of the single "HOUND" record, looking
up "UNIQUE" hits the zero slot's absent name. -/
theorem lookup_unmatched_reaches_absent_name_witness :
    (∀ r ∈ [houndRec], r.name ≠ some "UNIQUE") ∧
    summon_name_to_idxE (create_summons [houndRec]) (some "UNIQUE") =
      Except.error () := by
  have h : ∀ r ∈ [houndRec], r.name ≠ some "UNIQUE" := by
    intro r hr
    rw [List.mem_singleton] at hr
    subst hr
    simp [houndRec]
  exact ⟨h, lookup_unmatched_reaches_absent_name [houndRec] "UNIQUE" h⟩

end MonSummon
